import Mathlib

/-!
Verification of the `alog` logging facade (src/log.cpp).

The source is a Boost.Log based logger:
- `ToSimpleLevel` maps a `value_ref<LogLevel>` to a (color-escaped) glyph;
- the console sink formatter renders one record as
  `<timestamp> <glyph>/<bold-white tag>(<pid>): <message>`;
- the optional syslog sink uses a custom severity mapping table;
- `PrintLog` renders a printf format with `vasprintf`, returns early when
  the renderer yields no buffer, splits the rendered text on the newline
  character with `boost::split`, and emits one record per segment via
  `PrintLogInternal`, all under one scoped Tag / ProcessID and a per-record
  `local_clock` timestamp.

Text is embedded as `List Char` (a C++ `std::string` is a char sequence);
machine integers as `Int`; the `vasprintf` outcome as an `Option (List Char)`
oracle (`none` models the allocation-failure case where `tmp == 0`); the
wall clock as a sequence `Nat → Timestamp` giving the value read for the
k-th record of a call.
-/

set_option autoImplicit false

namespace zephyr

/-- Modelled from the spec: `log.h` (declared outside src/) defines the
ordered severity enumeration `LogLevel` with members VERBOSE, DEBUG, INFO,
WARN, ERROR, FATAL, lowest-to-highest urgency; as a plain C++ enum its
underlying values are the consecutive integers starting at 0. We work with
the underlying integer, so that out-of-range values (`static_cast` from an
arbitrary `int`) are representable. -/
abbrev LogLevel := Int

def LOG_VERBOSE : LogLevel := 0

def LOG_DEBUG : LogLevel := 1

def LOG_INFO : LogLevel := 2

def LOG_WARN : LogLevel := 3

def LOG_ERROR : LogLevel := 4

def LOG_FATAL : LogLevel := 5

/-- The members of the `LogLevel` enumeration, in declaration order. -/
def enumLevels : List LogLevel :=
  [LOG_VERBOSE, LOG_DEBUG, LOG_INFO, LOG_WARN, LOG_ERROR, LOG_FATAL]

/-- `ToSimpleLevel` from src/log.cpp lines 58-71: the argument is a
`value_ref<LogLevel>` (`none` models an empty reference, rejected by the
`if (l)` guard); the switch maps each enumeration member to its glyph and
falls through to the empty string on any other value. -/
def ToSimpleLevel (l : Option LogLevel) : List Char :=
  match l with
  | none => "".toList
  | some v =>
    if v = LOG_VERBOSE then "V".toList
    else if v = LOG_DEBUG then "\x1b[1;34mD\x1b[0m".toList
    else if v = LOG_INFO then "\x1b[01;36mI\x1b[0m".toList
    else if v = LOG_WARN then "\x1b[01;35mW\x1b[0m".toList
    else if v = LOG_ERROR then "\x1b[01;31mE\x1b[0m".toList
    else if v = LOG_FATAL then "\x1b[01;31mF\x1b[0m".toList
    else "".toList

/-- The severity levels of the external syslog facility
(`boost::log::sinks::syslog::level`, mirroring the RFC 3164 classes). -/
inductive SyslogLevel where
  | emergency
  | alert
  | critical
  | error
  | warning
  | notice
  | info
  | debug
deriving DecidableEq, Repr

/-- The custom severity mapping registered on the syslog sink
(src/log.cpp lines 110-117): six explicit entries, one per enumeration
member; `none` for a severity the table does not assign. -/
def facilityLevelFor (l : LogLevel) : Option SyslogLevel :=
  if l = LOG_VERBOSE then some SyslogLevel.debug
  else if l = LOG_DEBUG then some SyslogLevel.debug
  else if l = LOG_INFO then some SyslogLevel.info
  else if l = LOG_WARN then some SyslogLevel.warning
  else if l = LOG_ERROR then some SyslogLevel.error
  else if l = LOG_FATAL then some SyslogLevel.critical
  else none

/-- A wall-clock instant at the resolution the console formatter prints
(`%Y-%m-%d-%H:%M:%S`, i.e. seconds). -/
structure Timestamp where
  year : Nat
  month : Nat
  day : Nat
  hour : Nat
  minute : Nat
  second : Nat
deriving DecidableEq, Repr

/-- One emitted log record: the attribute set a Boost.Log record of this
program carries when it reaches a sink (TimeStamp, Severity, Tag,
ProcessID) plus the message text. -/
structure LogRecord where
  timestamp : Timestamp
  severity : LogLevel
  tag : List Char
  pid : Int
  message : List Char
deriving DecidableEq, Repr

/-- `boost::split(out, text, boost::is_any_of("\n"))`: a plain delimiter
split on the newline character, keeping empty segments (an empty input
yields one empty segment). -/
def split (s : List Char) : List (List Char) :=
  match s with
  | [] => [[]]
  | c :: cs =>
    if c = '\n' then [] :: split cs
    else
      match split cs with
      | [] => [[c]]
      | l :: ls => (c :: l) :: ls

/-- `PrintLogInternal` (src/log.cpp lines 128-130) builds the record the
macro `LOG(static_cast<LogLevel>(priority)) << text` emits: the severity is
the raw priority value cast into the enumeration, and the record picks up
the scoped Tag / ProcessID attributes and the `local_clock` timestamp. -/
def PrintLogInternal (priority : Int) (tag : List Char) (pid : Int)
    (ts : Timestamp) (text : List Char) : LogRecord :=
  { timestamp := ts, severity := priority, tag := tag, pid := pid,
    message := text }

/-- `PrintLog` (src/log.cpp lines 132-160) as the list of records one call
emits. `rendered` is the outcome of `vasprintf(&tmp, fmt, ap)`: `none` when
the renderer yields no buffer (`tmp == 0`, the allocation-failure case), in
which case the function returns at once; otherwise the rendered text is
split on newlines and each segment becomes one record, the k-th stamped
with the k-th wall-clock reading `clock k`. -/
def PrintLog (priority : Int) (tag : List Char) (pid : Int)
    (clock : Nat → Timestamp) (rendered : Option (List Char)) :
    List LogRecord :=
  match rendered with
  | none => []
  | some result =>
    (split result).enum.map fun p =>
      PrintLogInternal priority tag pid (clock p.1) p.2

/-- The character for a decimal digit, as an ostream renders it. -/
def digitChar (d : Nat) : Char := Char.ofNat (48 + d)

/-- Decimal rendering of a natural number, as `std::ostream` prints it. -/
def natChars (n : Nat) : List Char :=
  if _h : n < 10 then [digitChar n]
  else natChars (n / 10) ++ [digitChar (n % 10)]
termination_by n
decreasing_by exact Nat.div_lt_self (by omega) (by omega)

/-- Decimal rendering of a (signed) integer, as `std::ostream` prints the
`ProcessID` attribute. -/
def intChars (i : Int) : List Char :=
  if i < 0 then '-' :: natChars i.natAbs else natChars i.toNat

/-- Zero-padded two-digit field of the `%m`, `%d`, `%H`, `%M`, `%S`
date-time format flags. -/
def pad2 (n : Nat) : List Char :=
  if n < 10 then '0' :: natChars n else natChars n

/-- Zero-padded four-digit year of the `%Y` date-time format flag. -/
def pad4 (n : Nat) : List Char :=
  (if n < 10 then "000".toList
   else if n < 100 then "00".toList
   else if n < 1000 then "0".toList
   else []) ++ natChars n

/-- `expr::format_date_time(timestamp, "%Y-%m-%d-%H:%M:%S")` from the
console formatter (src/log.cpp line 90). -/
def formatDateTime (t : Timestamp) : List Char :=
  pad4 t.year ++ "-".toList ++ pad2 t.month ++ "-".toList ++ pad2 t.day
    ++ "-".toList ++ pad2 t.hour ++ ":".toList ++ pad2 t.minute
    ++ ":".toList ++ pad2 t.second

/-- The console sink formatter chain (src/log.cpp lines 89-98), transcribed
term by term from the `expr::stream` expression: date-time, space, glyph,
slash, bold-white escape, Tag, reset escape, open paren, ProcessID, close
paren, colon-space, message. -/
def consoleLine (r : LogRecord) : List Char :=
  formatDateTime r.timestamp
    ++ " ".toList
    ++ ToSimpleLevel (some r.severity)
    ++ "/".toList
    ++ "\x1b[01;37m".toList ++ r.tag ++ "\x1b[0m".toList
    ++ "(".toList ++ intChars r.pid ++ ")".toList
    ++ ": ".toList ++ r.message

/-- What the text backend writes for one record: the formatted line plus
the terminating newline the backend appends. -/
def consoleWrite (r : LogRecord) : List Char :=
  consoleLine r ++ "\n".toList

/-- The line format as the spec words it (section 4.3): timestamp, space,
severity glyph, slash, the tag wrapped in the bold-white color escape, the
process id in parentheses, colon and space, then the message. Written from
the spec template, to be compared with `consoleLine` from the source. -/
def consoleLineSpec (r : LogRecord) : List Char :=
  formatDateTime r.timestamp ++ " ".toList
    ++ ToSimpleLevel (some r.severity) ++ "/".toList
    ++ ("\x1b[01;37m".toList ++ r.tag ++ "\x1b[0m".toList)
    ++ ("(".toList ++ intChars r.pid ++ ")".toList)
    ++ ": ".toList ++ r.message

/-- A sample instant used in concrete evaluations. -/
def sampleTime : Timestamp :=
  { year := 2016, month := 1, day := 2, hour := 3, minute := 4, second := 5 }

/-! ### The rendered pieces contain no newline -/

theorem digitChar_ne_newline (d : Nat) (hd : d < 10) : digitChar d ≠ '\n' := by
  interval_cases d <;> decide

theorem natChars_no_newline (n : Nat) : '\n' ∉ natChars n := by
  induction n using Nat.strong_induction_on with
  | _ n ih =>
    unfold natChars
    split
    · rename_i h
      rw [List.mem_singleton]
      exact fun hm => digitChar_ne_newline n h hm.symm
    · rename_i h
      rw [List.mem_append, List.mem_singleton]
      push_neg
      refine ⟨ih (n / 10) (Nat.div_lt_self (by omega) (by omega)), ?_⟩
      exact fun hm => digitChar_ne_newline (n % 10) (Nat.mod_lt n (by omega))
        hm.symm

theorem intChars_no_newline (i : Int) : '\n' ∉ intChars i := by
  unfold intChars
  split
  · rw [List.mem_cons]
    push_neg
    exact ⟨by decide, natChars_no_newline _⟩
  · exact natChars_no_newline _

theorem pad2_no_newline (n : Nat) : '\n' ∉ pad2 n := by
  unfold pad2
  split
  · rw [List.mem_cons]
    push_neg
    exact ⟨by decide, natChars_no_newline _⟩
  · exact natChars_no_newline _

theorem pad4_no_newline (n : Nat) : '\n' ∉ pad4 n := by
  unfold pad4
  rw [List.mem_append]
  push_neg
  refine ⟨?_, natChars_no_newline _⟩
  split
  · decide
  · split
    · decide
    · split
      · decide
      · decide

theorem formatDateTime_no_newline (t : Timestamp) :
    '\n' ∉ formatDateTime t := by
  intro hm
  simp only [formatDateTime, List.mem_append] at hm
  rcases hm with ((((((((((h | h) | h) | h) | h) | h) | h) | h) | h) | h) | h)
  · exact pad4_no_newline _ h
  · exact absurd h (by decide)
  · exact pad2_no_newline _ h
  · exact absurd h (by decide)
  · exact pad2_no_newline _ h
  · exact absurd h (by decide)
  · exact pad2_no_newline _ h
  · exact absurd h (by decide)
  · exact pad2_no_newline _ h
  · exact absurd h (by decide)
  · exact pad2_no_newline _ h

theorem ToSimpleLevel_no_newline (l : Option LogLevel) :
    '\n' ∉ ToSimpleLevel l := by
  cases l with
  | none => decide
  | some v =>
    simp only [ToSimpleLevel]
    split_ifs <;> decide

theorem consoleLine_no_newline (r : LogRecord) (htag : '\n' ∉ r.tag)
    (hmsg : '\n' ∉ r.message) : '\n' ∉ consoleLine r := by
  intro hm
  simp only [consoleLine, List.mem_append] at hm
  rcases hm with
    (((((((((((h | h) | h) | h) | h) | h) | h) | h) | h) | h) | h) | h)
  · exact formatDateTime_no_newline _ h
  · exact absurd h (by decide)
  · exact ToSimpleLevel_no_newline _ h
  · exact absurd h (by decide)
  · exact absurd h (by decide)
  · exact htag h
  · exact absurd h (by decide)
  · exact absurd h (by decide)
  · exact intChars_no_newline _ h
  · exact absurd h (by decide)
  · exact absurd h (by decide)
  · exact hmsg h

/-! ### Lemmas about `split` -/

theorem split_ne_nil (s : List Char) : split s ≠ [] := by
  induction s with
  | nil => simp [split]
  | cons c cs ih =>
    simp only [split]
    split
    · simp
    · cases h : split cs with
      | nil => simp
      | cons l ls => simp

theorem split_length (s : List Char) :
    (split s).length = s.count '\n' + 1 := by
  induction s with
  | nil => simp [split]
  | cons c cs ih =>
    by_cases hc : c = '\n'
    · subst hc
      simp [split, ih, List.count_cons]
    · simp only [split, if_neg hc]
      cases h : split cs with
      | nil => exact absurd h (split_ne_nil cs)
      | cons l ls =>
        rw [h] at ih
        simp only [List.length_cons] at ih ⊢
        rw [List.count_cons]
        simp [hc, ih]

theorem split_cons_newline (cs : List Char) :
    split ('\n' :: cs) = [] :: split cs := by
  simp [split]

theorem split_cons_of_ne (c : Char) (cs : List Char) (hc : c ≠ '\n') :
    split (c :: cs) = (c :: (split cs).headI) :: (split cs).tail := by
  simp only [split, if_neg hc]
  cases h : split cs with
  | nil => exact absurd h (split_ne_nil cs)
  | cons l ls => simp

theorem intercalate_cons_cons {α : Type} (sep a b : List α)
    (t : List (List α)) :
    List.intercalate sep (a :: b :: t) =
      a ++ sep ++ List.intercalate sep (b :: t) := by
  simp [List.intercalate, List.intersperse]

theorem intercalate_single {α : Type} (sep a : List α) :
    List.intercalate sep [a] = a := by
  simp [List.intercalate]

theorem split_intercalate (s : List Char) :
    List.intercalate ['\n'] (split s) = s := by
  induction s with
  | nil =>
    show List.intercalate ['\n'] [[]] = []
    exact intercalate_single _ _
  | cons c cs ih =>
    by_cases hc : c = '\n'
    · subst hc
      rw [split_cons_newline]
      cases h : split cs with
      | nil => exact absurd h (split_ne_nil cs)
      | cons l ls =>
        rw [h] at ih
        rw [intercalate_cons_cons, ih]
        simp
    · rw [split_cons_of_ne c cs hc]
      cases h : split cs with
      | nil => exact absurd h (split_ne_nil cs)
      | cons l ls =>
        rw [h] at ih
        simp only [List.headI, List.tail]
        cases ls with
        | nil =>
          rw [intercalate_single] at ih ⊢
          rw [ih]
        | cons l2 ls2 =>
          rw [intercalate_cons_cons] at ih ⊢
          rw [← ih]
          simp

theorem split_append_newline (s : List Char) :
    split (s ++ ['\n']) = split s ++ [[]] := by
  induction s with
  | nil => rfl
  | cons c cs ih =>
    by_cases hc : c = '\n'
    · subst hc
      rw [List.cons_append, split_cons_newline, split_cons_newline, ih]
      rfl
    · rw [List.cons_append, split_cons_of_ne c _ hc, split_cons_of_ne c cs hc,
        ih]
      cases h : split cs with
      | nil => exact absurd h (split_ne_nil cs)
      | cons l ls => simp

/-! ### Claim theorems -/

/-- C1: for text with exactly N newline characters, the split `PrintLog`
performs before dispatch yields exactly N+1 segments; a text ending in a
newline gets a trailing empty segment; and joining the segments with a
newline separator re-yields the text exactly. -/
theorem split_count_roundtrip (s : List Char) :
    (split s).length = s.count '\n' + 1 ∧
    split (s ++ ['\n']) = split s ++ [[]] ∧
    List.intercalate ['\n'] (split s) = s :=
  ⟨split_length s, split_append_newline s, split_intercalate s⟩

/-- C3: the glyph mapping is fixed and deterministic on the enumeration —
V uncolored, D blue, I cyan, W magenta, E and F red — and returns the empty
string, without failing, on an empty reference and on every value outside
the enumeration. -/
theorem ToSimpleLevel_spec :
    ToSimpleLevel (some LOG_VERBOSE) = "V".toList ∧
    ToSimpleLevel (some LOG_DEBUG) = "\x1b[1;34mD\x1b[0m".toList ∧
    ToSimpleLevel (some LOG_INFO) = "\x1b[01;36mI\x1b[0m".toList ∧
    ToSimpleLevel (some LOG_WARN) = "\x1b[01;35mW\x1b[0m".toList ∧
    ToSimpleLevel (some LOG_ERROR) = "\x1b[01;31mE\x1b[0m".toList ∧
    ToSimpleLevel (some LOG_FATAL) = "\x1b[01;31mF\x1b[0m".toList ∧
    ToSimpleLevel none = "".toList ∧
    ∀ v : LogLevel, v ∉ enumLevels → ToSimpleLevel (some v) = "".toList := by
  refine ⟨rfl, rfl, rfl, rfl, rfl, rfl, rfl, ?_⟩
  intro v hv
  simp only [enumLevels, LOG_VERBOSE, LOG_DEBUG, LOG_INFO, LOG_WARN,
    LOG_ERROR, LOG_FATAL, List.mem_cons, List.not_mem_nil, or_false,
    not_or] at hv
  obtain ⟨h0, h1, h2, h3, h4, h5⟩ := hv
  simp [ToSimpleLevel, LOG_VERBOSE, LOG_DEBUG, LOG_INFO, LOG_WARN,
    LOG_ERROR, LOG_FATAL, h0, h1, h2, h3, h4, h5]

/-- Witness for C3: the out-of-enumeration value 42 maps to the empty
string. -/
theorem ToSimpleLevel_spec_witness :
    (42 : LogLevel) ∉ enumLevels ∧
      ToSimpleLevel (some 42) = "".toList :=
  ⟨by decide, ToSimpleLevel_spec.2.2.2.2.2.2.2 42 (by decide)⟩

/-- C4: the syslog severity mapping is total on the enumeration, sends
VERBOSE and DEBUG to the facility debug level, INFO to info, WARN to
warning, ERROR to error and FATAL to critical, and its image is exactly the
five external levels debug, info, warning, error, critical. -/
theorem facilityLevelFor_spec :
    facilityLevelFor LOG_VERBOSE = some SyslogLevel.debug ∧
    facilityLevelFor LOG_DEBUG = some SyslogLevel.debug ∧
    facilityLevelFor LOG_INFO = some SyslogLevel.info ∧
    facilityLevelFor LOG_WARN = some SyslogLevel.warning ∧
    facilityLevelFor LOG_ERROR = some SyslogLevel.error ∧
    facilityLevelFor LOG_FATAL = some SyslogLevel.critical ∧
    (enumLevels.map facilityLevelFor).all Option.isSome = true ∧
    (enumLevels.filterMap facilityLevelFor).dedup =
      [SyslogLevel.debug, SyslogLevel.info, SyslogLevel.warning,
       SyslogLevel.error, SyslogLevel.critical] := by
  decide

/-- C2: for every record the console sink writes exactly one line of the
byte-for-byte fixed form — timestamp "YYYY-MM-DD-HH:MM:SS", space, severity
glyph, slash, tag wrapped in the bold-white escape, process id in
parentheses, colon and space, then the message — the written bytes match
the spec template exactly, and (for single-line tag and message) contain
exactly one newline, the terminator. -/
theorem consoleSink_format (r : LogRecord) :
    consoleWrite r = consoleLineSpec r ++ "\n".toList ∧
    ('\n' ∉ r.tag → '\n' ∉ r.message →
      (consoleWrite r).count '\n' = 1) := by
  constructor
  · simp [consoleWrite, consoleLine, consoleLineSpec, List.append_assoc]
  · intro htag hmsg
    have h0 : (consoleLine r).count '\n' = 0 :=
      List.count_eq_zero.mpr (consoleLine_no_newline r htag hmsg)
    unfold consoleWrite
    rw [List.count_append, h0]
    decide

/-- Witness for C2: the format law evaluated at a concrete record. -/
theorem consoleSink_format_witness :
    consoleWrite
        { timestamp := sampleTime, severity := LOG_INFO, tag := "tag".toList,
          pid := 123, message := "hello".toList } =
      consoleLineSpec
        { timestamp := sampleTime, severity := LOG_INFO, tag := "tag".toList,
          pid := 123, message := "hello".toList } ++ "\n".toList ∧
    (consoleWrite
        { timestamp := sampleTime, severity := LOG_INFO, tag := "tag".toList,
          pid := 123, message := "hello".toList }).count '\n' = 1 :=
  ⟨(consoleSink_format _).1,
   (consoleSink_format
     { timestamp := sampleTime, severity := LOG_INFO, tag := "tag".toList,
       pid := 123, message := "hello".toList }).2 (by decide) (by decide)⟩

/-- C5: a call whose rendering succeeds with the empty string produces
exactly one record, whose message field is the empty string — not zero
records. -/
theorem PrintLog_empty_message (pid : Int) (clock : Nat → Timestamp) :
    PrintLog LOG_ERROR ("tag".toList) pid clock (some ("".toList)) =
      [{ timestamp := clock 0, severity := LOG_ERROR, tag := "tag".toList,
         pid := pid, message := "".toList }] := rfl

/-- Counterexample to C6 as stated: with an empty rendered string the call
does not short-circuit — it emits one record, not zero. -/
theorem PrintLog_empty_not_zero :
    PrintLog LOG_ERROR ("tag".toList) 37 (fun _ => sampleTime)
        (some ("".toList)) ≠ [] ∧
    (PrintLog LOG_ERROR ("tag".toList) 37 (fun _ => sampleTime)
        (some ("".toList))).length = 1 := by
  constructor
  · decide
  · rfl

/-- C6 (amended): only a failed rendering (the renderer yields no buffer)
short-circuits — then no records are emitted and no error is raised; an
empty rendered string instead yields exactly one record with an empty
message. -/
theorem PrintLog_short_circuit (p : Int) (tag : List Char) (pid : Int)
    (clock : Nat → Timestamp) :
    PrintLog p tag pid clock none = [] ∧
    PrintLog p tag pid clock (some ("".toList)) =
      [{ timestamp := clock 0, severity := p, tag := tag, pid := pid,
         message := "".toList }] := ⟨rfl, rfl⟩

/-- C7: when printf-style rendering fails (the renderer produces no
buffer), the call returns with zero output and no error is signaled. -/
theorem PrintLog_render_failure (p : Int) (tag : List Char) (pid : Int)
    (clock : Nat → Timestamp) :
    PrintLog p tag pid clock none = [] := rfl

/-- C8: Emit(INFO, "tag", "hello") produces exactly one console record,
with message field "hello" and tag field "tag". -/
theorem PrintLog_single_line (pid : Int) (clock : Nat → Timestamp) :
    PrintLog LOG_INFO ("tag".toList) pid clock (some ("hello".toList)) =
      [{ timestamp := clock 0, severity := LOG_INFO, tag := "tag".toList,
         pid := pid, message := "hello".toList }] := rfl

/-- C9: Emit(WARN, "tag", "line1\nline2") produces exactly two records,
with messages "line1" then "line2" in that order, sharing tag, pid, and —
when the two wall-clock readings of the call fall in the same second — the
same timestamp. -/
theorem PrintLog_two_lines (pid : Int) (clock : Nat → Timestamp)
    (hclock : clock 0 = clock 1) :
    PrintLog LOG_WARN ("tag".toList) pid clock
        (some ("line1\nline2".toList)) =
      [{ timestamp := clock 0, severity := LOG_WARN, tag := "tag".toList,
         pid := pid, message := "line1".toList },
       { timestamp := clock 0, severity := LOG_WARN, tag := "tag".toList,
         pid := pid, message := "line2".toList }] := by
  have h : PrintLog LOG_WARN ("tag".toList) pid clock
      (some ("line1\nline2".toList)) =
      [{ timestamp := clock 0, severity := LOG_WARN, tag := "tag".toList,
         pid := pid, message := "line1".toList },
       { timestamp := clock 1, severity := LOG_WARN, tag := "tag".toList,
         pid := pid, message := "line2".toList }] := rfl
  rw [h, hclock]

/-- Witness for C9: the two-line law at a constant clock. -/
theorem PrintLog_two_lines_witness :
    PrintLog LOG_WARN ("tag".toList) 7 (fun _ => sampleTime)
        (some ("line1\nline2".toList)) =
      [{ timestamp := sampleTime, severity := LOG_WARN, tag := "tag".toList,
         pid := 7, message := "line1".toList },
       { timestamp := sampleTime, severity := LOG_WARN, tag := "tag".toList,
         pid := 7, message := "line2".toList }] :=
  PrintLog_two_lines 7 (fun _ => sampleTime) rfl

/-- C10: every record emitted by one PrintLog call carries the same
severity (the raw priority cast into the enumeration), the same tag, and
the same process id, however many lines the text splits into. -/
theorem PrintLog_uniform_attrs (p : Int) (tag : List Char) (pid : Int)
    (clock : Nat → Timestamp) (rendered : Option (List Char))
    (r : LogRecord) (hr : r ∈ PrintLog p tag pid clock rendered) :
    r.severity = p ∧ r.tag = tag ∧ r.pid = pid := by
  cases rendered with
  | none => simp [PrintLog] at hr
  | some result =>
    simp only [PrintLog, List.mem_map] at hr
    obtain ⟨q, hq, rfl⟩ := hr
    exact ⟨rfl, rfl, rfl⟩

/-- Witness for C10: the first record of a concrete two-line call. -/
theorem PrintLog_uniform_attrs_witness :
    (PrintLogInternal 3 ("t".toList) 7 sampleTime ("a".toList)).severity
        = 3 ∧
    (PrintLogInternal 3 ("t".toList) 7 sampleTime ("a".toList)).tag
        = "t".toList ∧
    (PrintLogInternal 3 ("t".toList) 7 sampleTime ("a".toList)).pid = 7 :=
  PrintLog_uniform_attrs 3 ("t".toList) 7 (fun _ => sampleTime)
    (some ("a\nb".toList))
    (PrintLogInternal 3 ("t".toList) 7 sampleTime ("a".toList)) (by decide)

end zephyr
